import Mathlib

/-!
Shallow embedding of the beauty-store chat endpoint
(`src/app/api/admin/settings/route.ts`).  The file models the two POST
chat-handler variants found in that file: the "stateless" variant
(similarity threshold 1.4, lenient type filter) and the
"history-persisting" variant (similarity threshold 0.70, strict type
filter, attribute filter, Redis-backed conversation history).

Conventions of the embedding:
* JavaScript numbers used for prices and scores are modelled as `ℚ`
  (rounding to binary floating point is monotone, and every property
  proved here is about order and (non-)emptiness only).
* JavaScript `Array.prototype.sort` with the ascending price comparator
  is modelled by `List.mergeSort` (a stable sort, as JS `sort` is).
* Dynamically-typed metadata is modelled by `MetaVal`: either a
  structurally valid `ProductVectorMetadata` or an `invalid` blob, so
  that `isProductVectorMetadata` is a genuine runtime check.
* External effects (the vector index, exceptions) enter as explicit
  parameters (`QueryOutcome`), so every function below is pure and
  executable.
-/

/-! ## String helpers mirroring the JavaScript primitives used in the route -/

/-- `pat.isPrefixOf`-based substring test: `listContainsSub pat s` is true iff
`pat` occurs contiguously inside `s`.  Mirrors JS `String.prototype.includes`
(on the character lists of the two strings). -/
def listContainsSub (pat : List Char) : List Char → Bool
  | [] => pat.isEmpty
  | c :: rest => pat.isPrefixOf (c :: rest) || listContainsSub pat rest

/-- JS `s.includes(pat)`. -/
def strContains (s pat : String) : Bool :=
  listContainsSub pat.data s.data

/-- JS `s.toLowerCase()` (character-wise, as a kernel-computable function
on the string's character list). -/
def strToLower (s : String) : String := String.mk (s.data.map Char.toLower)

/-- JS `s.trim()`: strip whitespace from both ends. -/
def strTrim (s : String) : String :=
  String.mk (((s.data.dropWhile Char.isWhitespace).reverse.dropWhile
    Char.isWhitespace).reverse)

/-- JS `s.split(sep)` for a one-character separator, on character lists
(`split` never returns an empty list: the empty string yields `[[]]`). -/
def splitOnChar (sep : Char) : List Char → List (List Char)
  | [] => [[]]
  | c :: rest =>
      let r := splitOnChar sep rest
      if c = sep then [] :: r
      else
        match r with
        | [] => [[c]]
        | h :: t => (c :: h) :: t

/-- JS `s.split(sep)` for a one-character separator. -/
def strSplitOnChar (sep : Char) (s : String) : List String :=
  (splitOnChar sep s.data).map String.mk

/-- Characters kept by the cleaning regex `[^0-9.]` of `parsePrice`. -/
def isPriceChar (c : Char) : Bool := c.isDigit || c = '.'

/-- Decimal digits to a natural number. -/
def digitsToNat (ds : List Char) : Nat :=
  ds.foldl (fun n c => n * 10 + (c.toNat - 48)) 0

/-- JS `parseFloat` on a string containing only digits and dots (which is all
that survives the cleaning regex): parse the longest valid numeric prefix
`digits [ '.' digits ] | '.' digits`; `none` models `NaN`. -/
def parseFloatQ (cs : List Char) : Option ℚ :=
  let intPart := cs.takeWhile Char.isDigit
  let rest := cs.dropWhile Char.isDigit
  match rest with
  | '.' :: rest2 =>
      let fracPart := rest2.takeWhile Char.isDigit
      if intPart.isEmpty && fracPart.isEmpty then none
      else some (mkRat (digitsToNat intPart * 10 ^ fracPart.length +
        digitsToNat fracPart) (10 ^ fracPart.length))
  | _ => if intPart.isEmpty then none else some (mkRat (digitsToNat intPart) 1)

/-- `route.ts` `parsePrice`: strip every character other than `0-9` and `.`,
`parseFloat` the remainder, default `0` on `NaN` (the `|| 0`). -/
def parsePrice (priceStr : String) : ℚ :=
  let cleaned := priceStr.data.filter isPriceChar
  match parseFloatQ cleaned with
  | some q => q
  | none => 0

/-- Normalized product type: last `>`-separated segment, trimmed,
lower-cased; empty string when absent.  Mirrors
`(metadata.productType ?? '').split('>').pop()?.trim().toLowerCase() || ''`. -/
def normalizeType (pt : Option String) : String :=
  strToLower (strTrim ((strSplitOnChar '>' (pt.getD "")).getLastD ""))

/-! ## Data model -/

/-- Structurally valid vector metadata (`ProductVectorMetadata` in the
route; required string fields id/handle/title/price/productUrl, nullable
imageUrl, optional variantId/vendor/productType/tags). -/
structure ProductVectorMetadata where
  id : String
  handle : String
  title : String
  price : String
  imageUrl : Option String
  productUrl : String
  variantId : Option String
  vendor : Option String
  productType : Option String
  tags : Option String
  deriving DecidableEq, Repr

/-- A dynamically-typed metadata blob: the `isProductVectorMetadata` type
guard either certifies it (`valid`) or rejects it (`invalid`). -/
inductive MetaVal where
  | invalid
  | valid (m : ProductVectorMetadata)
  deriving DecidableEq, Repr

/-- One raw result of `vectorIndex.query`: id, relevance score, and an
optional metadata blob. -/
structure RawResult where
  id : String
  score : ℚ
  metadata : Option MetaVal
  deriving DecidableEq, Repr

/-- The `isProductVectorMetadata` type guard of the route, as a boolean on
the optional blob (`!result.metadata ||
!isProductVectorMetadata(result.metadata)` rejects both cases). -/
def isPVM : Option MetaVal → Bool
  | some (.valid _) => true
  | _ => false

/-- The unchecked cast `result.metadata as ProductVectorMetadata` (and the
`match.metadata!` assertion): extract the valid metadata, with an all-empty
record standing for the garbage a wrong cast would yield.  Every use below
is guarded by `isPVM`, so the default is never observable. -/
def metaOf (r : RawResult) : ProductVectorMetadata :=
  match r.metadata with
  | some (.valid m) => m
  | _ => ⟨"", "", "", "", none, "", none, none, none, none⟩

/-- Price sort key of a raw result, as used by both price-sort call sites. -/
def sortKey (r : RawResult) : ℚ := parsePrice (metaOf r).price

/-- Ascending-price comparator handed to the sort, as a boolean `le`. -/
def priceLe (a b : RawResult) : Bool := decide (sortKey a ≤ sortKey b)

/-- The parsed Gemini intent (`geminiResult` in the route).  The
history-persisting variant adds `attributes` and `product_tags`; the
stateless variant simply never reads them. -/
structure GeminiResult where
  ai_understanding : String
  search_keywords : String
  advice : String
  requested_product_count : Int
  product_types : List String
  usage_instructions : Option String
  price_filter : Option ℚ
  sort_by_price : Bool
  vendor : String
  attributes : Option (List String)
  product_tags : Option String
  deriving Repr

/-- The default `geminiResult` both variants start from, used whenever the
model call or its JSON parse fails. -/
def defaultGeminiResult : GeminiResult :=
  { ai_understanding := "Unable to interpret query intent."
    search_keywords := ""
    advice := "Sorry, I had trouble understanding your request."
    requested_product_count := 1
    product_types := []
    usage_instructions := none
    price_filter := none
    sort_by_price := false
    vendor := ""
    attributes := none
    product_tags := none }

/-- `const requestedCount = Math.max(1, geminiResult.requested_product_count || 1)`
(`|| 1` maps the falsy `0` to `1`). -/
def requestedCountOf (g : GeminiResult) : Nat :=
  (max 1 (if g.requested_product_count = 0 then 1 else
    g.requested_product_count)).toNat

/-- `const topK = Math.max(requestedCount * 2, 10)`. -/
def topKOf (g : GeminiResult) : Nat := max (requestedCountOf g * 2) 10

/-! ## The per-query filter predicates -/

/-- The `filter` argument of `performVectorQuery`.  `productType` and `tags`
are optional; `vendor` is always passed (`geminiResult.vendor`, default
`''`), and JS truthiness makes the empty string skip each check. -/
structure QueryFilter where
  productType : Option String
  tags : Option String
  vendor : String
  deriving Repr

/-- The `keywordMappings.synonyms` record, as an association list. -/
abbrev SynonymMap := List (String × List String)

/-- `keywordMappings.synonyms[productTypeLower] || []`. -/
def synLookup (syns : SynonymMap) (k : String) : List String :=
  match syns.lookup k with
  | some l => l
  | none => []

/-- Filter body of the stateless variant's `performVectorQuery`
(route.ts lines 394-465): invalid metadata is rejected outright; then the
lenient type match (normalized type / tags / title contain the filter
string or any cached synonym), the OR tag match over space-split tokens,
exact case-insensitive vendor equality, and the price ceiling. -/
def passesFilterS (g : GeminiResult) (syns : SynonymMap) (f : QueryFilter)
    (r : RawResult) : Bool :=
  match r.metadata with
  | some (.valid m) =>
      let typeMatch :=
        match f.productType with
        | some pt =>
            if pt.isEmpty then true
            else
              let ptL := strToLower pt
              let mType := normalizeType m.productType
              let mTags := strToLower (m.tags.getD "")
              let mTitle := strToLower m.title
              let synonymsForType := synLookup syns ptL
              strContains mType ptL || strContains mTags ptL ||
                strContains mTitle ptL ||
                synonymsForType.any (fun syn =>
                  strContains mType syn || strContains mTags syn ||
                    strContains mTitle syn)
        | none => true
      let tagMatch :=
        match f.tags with
        | some t =>
            if t.isEmpty then true
            else
              let mTags := strToLower (m.tags.getD "")
              let mTitle := strToLower m.title
              let tagWords := strSplitOnChar ' ' (strToLower t)
              tagWords.any (fun w =>
                strContains mTags w || strContains mTitle w)
        | none => true
      let vendorMatch :=
        if f.vendor.isEmpty then true
        else strToLower (m.vendor.getD "") == strToLower f.vendor
      let priceMatch :=
        match g.price_filter with
        | some pf => decide (parsePrice m.price ≤ pf)
        | none => true
      typeMatch && tagMatch && vendorMatch && priceMatch
  | _ => false

/-- Filter body of the history variant's `performVectorQuery`
(route.ts lines 1076-1127): the type match consults only the normalized
product type (no tags/title/synonyms), `tagMatch` is the constant `true`,
attributes must all appear in the lower-cased tag string (AND), vendor is
exact case-insensitive, and the price ceiling falls back to `20` when the
attributes contain the literal `"under $20"`.  (The write to
`geminiResult.product_tags` inside the filter feeds nothing that runs
afterwards, so it is not modelled.) -/
def passesFilterH (g : GeminiResult) (f : QueryFilter) (r : RawResult) : Bool :=
  match r.metadata with
  | some (.valid m) =>
      let typeMatch :=
        match f.productType with
        | some pt =>
            if pt.isEmpty then true
            else strContains (normalizeType m.productType) (strToLower pt)
        | none => true
      let tagMatch := true
      let metadataTagsLower := strToLower (m.tags.getD "")
      let attributeMatch :=
        match g.attributes with
        | some attrs =>
            if attrs.isEmpty then true
            else attrs.all (fun attr => strContains metadataTagsLower (strToLower attr))
        | none => true
      let vendorMatch :=
        if f.vendor.isEmpty then true
        else strToLower (m.vendor.getD "") == strToLower f.vendor
      let priceMatch :=
        match g.price_filter with
        | some pf => decide (parsePrice m.price ≤ pf)
        | none =>
            if (g.attributes.getD []).contains "under $20" then
              decide (parsePrice m.price ≤ 20)
            else true
      typeMatch && tagMatch && vendorMatch && priceMatch && attributeMatch
  | _ => false

/-! ## `performVectorQuery` -/

/-- Outcome of one call to the vector index adapter: it either throws
(`error`, caught at the call site) or returns a ranked result list. -/
inductive QueryOutcome where
  | error
  | ok (results : List RawResult)
  deriving Repr

/-- The post-processing both variants apply to raw results: filter with the
per-record predicate, then — under `sort_by_price` — re-check
`metadata != null` and sort ascending by parsed price. -/
def filterAndSort (pred : RawResult → Bool) (g : GeminiResult)
    (results : List RawResult) : List RawResult :=
  if g.sort_by_price then
    ((results.filter pred).filter (fun r => r.metadata.isSome)).mergeSort priceLe
  else results.filter pred

/-- The shared body of `performVectorQuery` (duplicated verbatim between
the two variants up to the filter predicate): `none` (the JS `null`) for an
uninitialized client, blank search text, an adapter exception, zero raw
results, or an all-filtered result set; otherwise the non-empty
filtered/sorted list. -/
def queryCore (pred : RawResult → Bool) (g : GeminiResult) (indexOk : Bool)
    (searchText : String) (out : QueryOutcome) : Option (List RawResult) :=
  if !indexOk then none
  else if (strTrim searchText).isEmpty then none
  else
    match out with
    | .error => none
    | .ok results =>
        if results.isEmpty then none
        else if (filterAndSort pred g results).isEmpty then none
        else some (filterAndSort pred g results)

/-- Stateless variant's `performVectorQuery` (route.ts lines 366-488) as a
pure function.  `indexOk` models whether `vectorIndex` was initialized; the
adapter's behaviour for the given search text and `topK` enters as `out`.
Returns `none` (the JS `null`) for an uninitialized client, blank search
text, an adapter exception, zero raw results, or an all-filtered result
set; otherwise the filtered (and, under `sort_by_price`, price-sorted)
non-empty list. -/
def performVectorQueryS (g : GeminiResult) (syns : SynonymMap)
    (indexOk : Bool) (searchText : String) (f : QueryFilter)
    (out : QueryOutcome) : Option (List RawResult) :=
  queryCore (passesFilterS g syns f) g indexOk searchText out

/-- History variant's `performVectorQuery` (route.ts lines 1044-1143); same
shape as the stateless one but with `passesFilterH`. -/
def performVectorQueryH (g : GeminiResult) (indexOk : Bool)
    (searchText : String) (f : QueryFilter) (out : QueryOutcome) :
    Option (List RawResult) :=
  queryCore (passesFilterH g f) g indexOk searchText out

/-! ## Multi-type accumulation (the `usedProductIds` loop) -/

/-- One iteration of the multi-type loop (route.ts lines 497-527 /
1152-1181), given the per-type query result (the first non-`null` of that
type's up-to-three attempts): drop records whose id was already claimed,
append the top 1 (or top 4 under `sort_by_price`) of the remainder, and
claim every remaining id. -/
def multiTypeStep (sortByPrice : Bool) (st : List String × List RawResult)
    (res : Option (List RawResult)) : List String × List RawResult :=
  match res with
  | some rs =>
      if rs.isEmpty then st
      else
        let newResults := rs.filter (fun r => !st.1.contains r.id)
        (st.1 ++ newResults.map (·.id),
         st.2 ++ newResults.take (if sortByPrice then 4 else 1))
  | none => st

/-- `topMatches` accumulated over all requested product types, starting
from an empty `usedProductIds` set. -/
def multiTypeAccumulate (sortByPrice : Bool)
    (stageResults : List (Option (List RawResult))) : List RawResult :=
  (stageResults.foldl (multiTypeStep sortByPrice) ([], [])).2

/-! ## Match processing and product cards -/

/-- `productData.variantId || productData.id` (missing or empty falls back
to the id). -/
def jsVariantId (m : ProductVectorMetadata) : String :=
  match m.variantId with
  | some v => if v.isEmpty then m.id else v
  | none => m.id

/-- Output product card of the stateless variant. -/
structure ProductCardResponse where
  title : String
  description : String
  price : String
  image : Option String
  landing_page : String
  variantId : String
  deriving DecidableEq, Repr

/-- Output product card of the history variant (carries the tag string). -/
structure ProductCardResponseH where
  title : String
  description : String
  price : String
  image : Option String
  landing_page : String
  variantId : String
  tags : String
  deriving DecidableEq, Repr

/-- Stateless card for a candidate accepted by the score filter. -/
def toCardStrictS (r : RawResult) : ProductCardResponse :=
  let m := metaOf r
  ⟨m.title, "Found product related to your query.", m.price, m.imageUrl,
    m.productUrl, jsVariantId m⟩

/-- Stateless card for a candidate taken by the safety-net branch. -/
def toCardFallbackS (r : RawResult) : ProductCardResponse :=
  let m := metaOf r
  ⟨m.title, "Related product suggestion.", m.price, m.imageUrl,
    m.productUrl, jsVariantId m⟩

/-- History-variant card for a candidate accepted by the score filter. -/
def toCardStrictH (r : RawResult) : ProductCardResponseH :=
  let m := metaOf r
  ⟨m.title, "Found product related to your query.", m.price, m.imageUrl,
    m.productUrl, jsVariantId m, m.tags.getD ""⟩

/-- History-variant card for a candidate taken by the safety-net branch. -/
def toCardFallbackH (r : RawResult) : ProductCardResponseH :=
  let m := metaOf r
  ⟨m.title, "Related product suggestion.", m.price, m.imageUrl,
    m.productUrl, jsVariantId m, m.tags.getD ""⟩

/-- `validMatches` (both variants): drop candidates with invalid metadata,
truncate to `requestedCount`, and price-sort when requested (the sort
re-checks `metadata != null` first, as the code does). -/
def selectValidMatches (g : GeminiResult) (rc : Nat) (tm : List RawResult) :
    List RawResult :=
  let valid := (tm.filter (fun r => isPVM r.metadata)).take rc
  if g.sort_by_price then
    (valid.filter (fun r => r.metadata.isSome)).mergeSort priceLe
  else valid

/-- The provenance label of the universal-fallback stage. -/
def fallbackStage : String := "Fallback Related Products"

/-- Stateless-variant similarity threshold. -/
def similarityThresholdS : ℚ := mkRat 14 10

/-- History-variant similarity threshold. -/
def similarityThresholdH : ℚ := mkRat 7 10

/-- "Process matches" (route.ts lines 573-624 and, duplicated verbatim in
the history variant, lines 1228-1277), generic in the two card
constructors: from the accumulated `topMatches` and the provenance `stage`,
produce the final product cards.  Outside the fallback stage a non-empty
`validMatches` is first filtered by `score >= threshold`; whenever that
leaves nothing (and always in the fallback stage), every truncated
candidate is mapped instead. -/
def finalCardsGen {κ : Type} (strictCard fallbackCard : RawResult → κ)
    (g : GeminiResult) (th : ℚ) (rc : Nat) (stage : String)
    (tm : List RawResult) : List κ :=
  if tm.isEmpty then []
  else
    let valid := selectValidMatches g rc tm
    let first :=
      if !valid.isEmpty && stage != fallbackStage then
        (valid.filter (fun r => decide (th ≤ r.score))).map strictCard
      else []
    if first.isEmpty then valid.map fallbackCard else first

/-- "Process matches" of the stateless variant. -/
def finalCardsS (g : GeminiResult) (th : ℚ) (rc : Nat) (stage : String)
    (tm : List RawResult) : List ProductCardResponse :=
  finalCardsGen toCardStrictS toCardFallbackS g th rc stage tm

/-- "Process matches" of the history variant. -/
def finalCardsH (g : GeminiResult) (th : ℚ) (rc : Nat) (stage : String)
    (tm : List RawResult) : List ProductCardResponseH :=
  finalCardsGen toCardStrictH toCardFallbackH g th rc stage tm

/-! ## Intent post-processing (`requested_product_count` adjustment) -/

/-- The four-way adjustment applied to a successfully parsed Gemini intent
(route.ts lines 333-345 / 1011-1023), given the trimmed query and the
cache's `defaultComboTypes`.  Branches are tried in order: non-empty
`product_types` forces the count to the number of types; "set"/"combo"
queries get the default combo triad; "top 4 cheapest" forces 4; "list"
clamps to 10 (`|| 10` maps a falsy `0` count to 10). -/
def adjustGeminiResult (defaultComboTypes : List String) (trimmedQuery : String)
    (g : GeminiResult) : GeminiResult :=
  let q := strToLower trimmedQuery
  if g.product_types.length > 0 then
    { g with requested_product_count := g.product_types.length }
  else if strContains q "set" || strContains q "combo" then
    let pts := if defaultComboTypes.length > 0 then defaultComboTypes
      else ["cleanser", "moisturizer", "treatment"]
    { g with product_types := pts, requested_product_count := pts.length }
  else if strContains q "top 4 cheapest" then
    { g with requested_product_count := 4 }
  else if strContains q "list" then
    let c := if g.requested_product_count = 0 then 10 else
      g.requested_product_count
    { g with requested_product_count := min c 10 }
  else g

/-! ## Response assembly and the catastrophic catch -/

/-- The fixed default usage paragraph of both variants. -/
def defaultUsageText : String :=
  "For skincare products: \n1. Cleanse your face with a gentle cleanser and pat dry.\n2. Apply a small amount of the product to affected areas, once or twice daily as directed.\n3. Follow with a non-comedogenic moisturizer.\n4. Use sunscreen during the day.\nFor makeup like lipstick: Apply evenly to lips, reapply as needed.\nAlways patch test new products and consult a specialist if irritation occurs."

/-- Final `advice` field: `geminiResult.advice` + two newlines + the usage
instructions (the default paragraph when `usage_instructions` is absent or
empty, via JS `||`) + the collected search note. -/
def buildAdvice (advice : String) (usage : Option String)
    (searchNote : String) : String :=
  let usageText :=
    match usage with
    | some u => if u.isEmpty then defaultUsageText else u
    | none => defaultUsageText
  advice ++ "\n\n" ++ usageText ++ searchNote

/-- `advice` of the top-level catch handler: generic apology with the error
message truncated to 100 characters. -/
def catchAdvice (errMsg : String) : String :=
  "Sorry, I encountered a problem processing your request. (Ref: " ++
    errMsg.take 100 ++ ")"

/-! ## Request gate (query validation) -/

/-- A JSON value, as far as the query-field validation observes it. -/
inductive JsVal where
  | undefined
  | null
  | str (s : String)
  | num (n : ℚ)
  | boolean (b : Bool)
  | object
  | array
  deriving DecidableEq, Repr

/-- JS truthiness of a `JsVal` (`!query`). -/
def jsTruthy : JsVal → Bool
  | .undefined => false
  | .null => false
  | .str s => !s.isEmpty
  | .num n => decide (n ≠ 0)
  | .boolean b => b
  | .object => true
  | .array => true

/-- `typeof query === 'string'`. -/
def isStringVal : JsVal → Bool
  | .str _ => true
  | _ => false

/-- The string payload (only meaningful when `isStringVal`). -/
def jsStrOf : JsVal → String
  | .str s => s
  | _ => ""

/-- `!query || typeof query !== 'string' || query.trim().length === 0`
(route.ts lines 251 / 902). -/
def queryInvalid (q : JsVal) : Bool :=
  !jsTruthy q || !isStringVal q || (strTrim (jsStrOf q)).isEmpty

/-- An `{ error }` JSON response with its HTTP status. -/
structure ErrorResponse where
  error : String
  status : Nat
  deriving DecidableEq, Repr

/-- The top of both POST handlers: reject an invalid query with a 400
`{ error: 'Invalid query provided' }`, otherwise hand the trimmed query to
the rest of the pipeline. -/
def chatGate (q : JsVal) : Except ErrorResponse String :=
  if queryInvalid q then Except.error ⟨"Invalid query provided", 400⟩
  else Except.ok (strTrim (jsStrOf q))

/-- Count of external-effect stages a request execution performed:
language-model calls, vector-search queries, history writes. -/
structure PipelineTrace where
  llmCalls : Nat
  searchCalls : Nat
  historyWrites : Nat
  deriving DecidableEq, Repr

/-- The handler around the gate: on a rejected query the response is the
400 error and no pipeline stage runs (both handlers return before the
Gemini call, every `performVectorQuery`, and the Redis write); otherwise
whatever the rest of the pipeline produces. -/
def runChat {ρ : Type} (errorResponse : ErrorResponse → ρ)
    (pipeline : String → ρ × PipelineTrace) (q : JsVal) : ρ × PipelineTrace :=
  match chatGate q with
  | .error e => (errorResponse e, ⟨0, 0, 0⟩)
  | .ok tq => pipeline tq

/-! ## Conversation history (history-persisting variant) -/

/-- One stored turn (`{ role, text }`). -/
structure ConversationTurn where
  role : String
  text : String
  deriving DecidableEq, Repr

/-- JS `h.slice(-n)` for a natural `n`.  Note `slice(-0)` is `slice(0)`:
the whole array. -/
def jsSliceLast {α : Type} (h : List α) (n : Nat) : List α :=
  if n = 0 then h else h.drop (h.length - n)

/-- `parseInt(process.env.MAX_CHAT_HISTORY || '10', 10)` default. -/
def defaultMaxChatHistory : Nat := 10

/-- The `{ ex: 60 * 60 * 24 }` TTL of the Redis write. -/
def historyTtlSeconds : Nat := 60 * 60 * 24

/-- History update of the history variant (route.ts lines 1295-1303):
append the user turn and the bot turn, then truncate with `slice(-max)`
when over the cap; the result is what gets persisted with the TTL. -/
def updateHistory (history : List ConversationTurn)
    (trimmedQuery adviceText : String) (maxHistory : Nat) :
    List ConversationTurn :=
  let h := history ++ [⟨"user", trimmedQuery⟩, ⟨"bot", adviceText⟩]
  if maxHistory < h.length then jsSliceLast h maxHistory else h

/-! ## Spec-worded filter predicates (for the refinement claim about the
type/tag filter) -/

/-- Modelled from the spec's words (type match): "the record's normalized
type, or its tag string, or its title, must contain the filter string OR
any of its cached synonyms". -/
def specTypeMatch (syns : List String) (pt : String)
    (m : ProductVectorMetadata) : Bool :=
  let ptL := strToLower pt
  let fields := [normalizeType m.productType, strToLower (m.tags.getD ""),
    strToLower m.title]
  fields.any (fun fld => strContains fld ptL) ||
    syns.any (fun syn => fields.any (fun fld => strContains fld syn))

/-- Modelled from the spec's words (tag match): "at least one token must
appear in the record's tags or title (OR semantics)". -/
def specTagMatch (tagFilter : String) (m : ProductVectorMetadata) : Bool :=
  (strSplitOnChar ' ' (strToLower tagFilter)).any (fun w =>
    strContains (strToLower (m.tags.getD "")) w ||
      strContains (strToLower m.title) w)

/-! ## Concrete sample inputs used by witnesses and counterexamples -/

/-- Wrap a structurally valid metadata record as a raw query result. -/
def mkValidResult (i : String) (sc : ℚ) (m : ProductVectorMetadata) :
    RawResult :=
  ⟨i, sc, some (.valid m)⟩

/-- A well-formed vegan lipstick record. -/
def sampleMeta : ProductVectorMetadata :=
  { id := "p1", handle := "velvet-lipstick", title := "Velvet Lipstick",
    price := "$15.00", imageUrl := none,
    productUrl := "https://example.com/p1", variantId := some "v1",
    vendor := some "Enjoy", productType := some "Health & Beauty > Lipstick",
    tags := some "vegan, lipstick" }

/-- A second well-formed record with a higher price. -/
def sampleMeta2 : ProductVectorMetadata :=
  { id := "p2", handle := "silk-gloss", title := "Silk Gloss",
    price := "$22.50", imageUrl := some "https://example.com/p2.jpg",
    productUrl := "https://example.com/p2", variantId := none,
    vendor := none, productType := some "Makeup > Gloss",
    tags := some "vegan, gloss" }

/-- A record whose title mentions lipstick while its normalized product
type does not: passes the lenient (spec-worded) type match, fails the
history variant's strict one. -/
def c6Meta : ProductVectorMetadata :=
  { id := "p6", handle := "matte-lipstick-red", title := "Matte Lipstick Red",
    price := "$9.99", imageUrl := none,
    productUrl := "https://example.com/p6", variantId := none,
    vendor := none, productType := some "Makeup > Accessories",
    tags := some "" }

/-- What the intent stage is documented to produce for
`"top 4 cheapest lipsticks"` (the prompt asks for `requested_product_count
= 4` and `sort_by_price = true` with `product_types = ["lipstick"]`). -/
def c2ParsedIntent : GeminiResult :=
  { defaultGeminiResult with
      ai_understanding := "User wants the four cheapest lipsticks."
      search_keywords := "lipstick"
      advice := "Here are our cheapest lipsticks."
      requested_product_count := 4
      product_types := ["lipstick"]
      sort_by_price := true }

/-- A history-variant intent with a vegan attribute and a $20 ceiling. -/
def c7Intent : GeminiResult :=
  { defaultGeminiResult with
      search_keywords := "lipstick"
      attributes := some ["vegan"]
      price_filter := some 20 }

/-! ## Helper lemmas: price parsing -/

theorem parseFloatQ_nonneg (cs : List Char) (q : ℚ)
    (h : parseFloatQ cs = some q) : 0 ≤ q := by
  simp only [parseFloatQ] at h
  split at h
  · split at h
    · exact Option.noConfusion h
    · injection h with h'
      subst h'
      exact Rat.mkRat_nonneg (by positivity) _
  · split at h
    · exact Option.noConfusion h
    · injection h with h'
      subst h'
      exact Rat.mkRat_nonneg (by positivity) _

theorem parsePrice_nonneg (s : String) : 0 ≤ parsePrice s := by
  simp only [parsePrice]
  split
  · next q hq => exact parseFloatQ_nonneg _ q hq
  · exact le_refl 0

theorem parsePrice_eq_zero_of_no_price_chars (s : String)
    (h : ∀ c ∈ s.data, isPriceChar c = false) : parsePrice s = 0 := by
  have hf : s.data.filter isPriceChar = [] :=
    List.filter_eq_nil_iff.mpr (by intro a ha; simp [h a ha])
  simp only [parsePrice, hf]
  rfl

/-! ## Helper lemmas: the price sort -/

theorem priceLe_trans (a b c : RawResult) (hab : priceLe a b = true)
    (hbc : priceLe b c = true) : priceLe a c = true := by
  simp only [priceLe, decide_eq_true_eq] at *
  exact le_trans hab hbc

theorem priceLe_total (a b : RawResult) : (priceLe a b || priceLe b a) = true := by
  simp only [priceLe, Bool.or_eq_true, decide_eq_true_eq]
  exact le_total _ _

theorem pairwise_sortKey_mergeSort (l : List RawResult) :
    (l.mergeSort priceLe).Pairwise (fun a b => sortKey a ≤ sortKey b) := by
  have h := List.sorted_mergeSort priceLe_trans priceLe_total l
  exact h.imp (fun hab => by simpa [priceLe] using hab)

/-! ## Helper lemmas: `selectValidMatches` -/

theorem isSome_of_isPVM {o : Option MetaVal} (h : isPVM o = true) :
    o.isSome = true := by
  match o with
  | some (.valid m) => rfl
  | some .invalid => simp [isPVM] at h
  | none => simp [isPVM] at h

theorem selectValidMatches_nil (g : GeminiResult) (rc : Nat) :
    selectValidMatches g rc [] = [] := by
  simp [selectValidMatches]

theorem mem_selectValidMatches {g : GeminiResult} {rc : Nat}
    {tm : List RawResult} {r : RawResult}
    (h : r ∈ selectValidMatches g rc tm) :
    r ∈ tm ∧ isPVM r.metadata = true := by
  have key : r ∈ (tm.filter (fun x => isPVM x.metadata)).take rc := by
    simp only [selectValidMatches] at h
    split at h
    · have h1 := (List.mergeSort_perm _ priceLe).mem_iff.mp h
      exact (List.mem_filter.mp h1).1
    · exact h
  have h2 := (List.take_sublist rc _).subset key
  exact ⟨(List.mem_filter.mp h2).1, (List.mem_filter.mp h2).2⟩

theorem selectValidMatches_length_le (g : GeminiResult) (rc : Nat)
    (tm : List RawResult) : (selectValidMatches g rc tm).length ≤ rc := by
  simp only [selectValidMatches]
  split
  · rw [(List.mergeSort_perm _ priceLe).length_eq]
    exact le_trans (List.length_filter_le _ _)
      (le_trans (Nat.le_of_eq (List.length_take _ _)) (min_le_left _ _))
  · exact le_trans (Nat.le_of_eq (List.length_take _ _)) (min_le_left _ _)

theorem selectValidMatches_length_pos {g : GeminiResult} {rc : Nat}
    {tm : List RawResult} (hrc : 1 ≤ rc)
    (h : ∃ r ∈ tm, isPVM r.metadata = true) :
    0 < (selectValidMatches g rc tm).length := by
  obtain ⟨r, hrtm, hr⟩ := h
  have hmemf : r ∈ tm.filter (fun x => isPVM x.metadata) :=
    List.mem_filter.mpr ⟨hrtm, hr⟩
  have hlen : 0 < ((tm.filter (fun x => isPVM x.metadata)).take rc).length := by
    rw [List.length_take]
    exact lt_min (by omega) (List.length_pos.mpr (List.ne_nil_of_mem hmemf))
  simp only [selectValidMatches]
  split
  · have hall : ∀ x ∈ (tm.filter (fun x => isPVM x.metadata)).take rc,
        (fun x : RawResult => x.metadata.isSome) x = true := by
      intro x hx
      exact isSome_of_isPVM
        (List.mem_filter.mp ((List.take_sublist rc _).subset hx)).2
    rw [(List.mergeSort_perm _ priceLe).length_eq, List.filter_eq_self.mpr hall]
    exact hlen
  · exact hlen

theorem selectValidMatches_ne_nil {g : GeminiResult} {rc : Nat}
    {tm : List RawResult} (hrc : 1 ≤ rc)
    (h : ∃ r ∈ tm, isPVM r.metadata = true) :
    selectValidMatches g rc tm ≠ [] :=
  List.ne_nil_of_length_pos (selectValidMatches_length_pos hrc h)

theorem selectValidMatches_sorted {g : GeminiResult}
    (hs : g.sort_by_price = true) (rc : Nat) (tm : List RawResult) :
    (selectValidMatches g rc tm).Pairwise (fun a b => sortKey a ≤ sortKey b) := by
  simp only [selectValidMatches, hs, if_true]
  exact pairwise_sortKey_mergeSort _

/-! ## Helper lemmas: `finalCardsGen` -/

theorem finalCardsGen_eq {κ : Type} (sc fc : RawResult → κ)
    (g : GeminiResult) (th : ℚ) (rc : Nat) (stage : String)
    (tm : List RawResult) :
    finalCardsGen sc fc g th rc stage tm =
      (if tm = [] then []
       else if selectValidMatches g rc tm ≠ [] ∧ stage ≠ fallbackStage ∧
           (selectValidMatches g rc tm).filter
             (fun r => decide (th ≤ r.score)) ≠ [] then
         ((selectValidMatches g rc tm).filter
           (fun r => decide (th ≤ r.score))).map sc
       else (selectValidMatches g rc tm).map fc) := by
  by_cases htm : tm = []
  · simp [finalCardsGen, htm]
  · by_cases hv : selectValidMatches g rc tm = []
    · simp [finalCardsGen, List.isEmpty_iff, htm, hv]
    · by_cases hst : stage = fallbackStage
      · simp [finalCardsGen, List.isEmpty_iff, bne_iff_ne, htm, hv, hst]
      · by_cases hstrict : (selectValidMatches g rc tm).filter
            (fun r => decide (th ≤ r.score)) = []
        · simp [finalCardsGen, List.isEmpty_iff, List.map_eq_nil_iff,
            bne_iff_ne, htm, hv, hst, hstrict]
        · simp [finalCardsGen, List.isEmpty_iff, List.map_eq_nil_iff,
            bne_iff_ne, htm, hv, hst, hstrict]

theorem finalCardsGen_not_fallback {κ : Type} (sc fc : RawResult → κ)
    {g : GeminiResult} {th : ℚ} {rc : Nat} {stage : String}
    {tm : List RawResult} (hstage : stage ≠ fallbackStage)
    (hvalid : selectValidMatches g rc tm ≠ []) :
    finalCardsGen sc fc g th rc stage tm =
      (if ((selectValidMatches g rc tm).filter
            (fun r => decide (th ≤ r.score))) = []
       then (selectValidMatches g rc tm).map fc
       else ((selectValidMatches g rc tm).filter
            (fun r => decide (th ≤ r.score))).map sc) := by
  have htm : tm ≠ [] := by
    intro h
    exact hvalid (h ▸ selectValidMatches_nil g rc)
  rw [finalCardsGen_eq, if_neg htm]
  by_cases hstrict : (selectValidMatches g rc tm).filter
      (fun r => decide (th ≤ r.score)) = []
  · simp [hstrict]
  · simp [hstrict, hvalid, hstage]

theorem finalCardsGen_fallback {κ : Type} (sc fc : RawResult → κ)
    (g : GeminiResult) (th : ℚ) (rc : Nat) (tm : List RawResult) :
    finalCardsGen sc fc g th rc fallbackStage tm =
      (selectValidMatches g rc tm).map fc := by
  rw [finalCardsGen_eq]
  by_cases htm : tm = []
  · simp [htm, selectValidMatches_nil]
  · simp [htm]

theorem finalCardsGen_eq_nil {κ : Type} {sc fc : RawResult → κ}
    {g : GeminiResult} {th : ℚ} {rc : Nat} {stage : String}
    {tm : List RawResult}
    (h : finalCardsGen sc fc g th rc stage tm = []) :
    selectValidMatches g rc tm = [] := by
  rw [finalCardsGen_eq] at h
  split at h
  · next htm => exact htm ▸ selectValidMatches_nil g rc
  · split at h
    · next hc => exact absurd (List.map_eq_nil_iff.mp h) hc.2.2
    · exact List.map_eq_nil_iff.mp h

theorem finalCardsGen_ne_nil {κ : Type} {sc fc : RawResult → κ}
    {g : GeminiResult} {th : ℚ} {rc : Nat} {stage : String}
    {tm : List RawResult}
    (hvalid : selectValidMatches g rc tm ≠ []) :
    finalCardsGen sc fc g th rc stage tm ≠ [] :=
  fun h => hvalid (finalCardsGen_eq_nil h)

theorem finalCardsGen_length_le {κ : Type} (sc fc : RawResult → κ)
    (g : GeminiResult) (th : ℚ) (rc : Nat) (stage : String)
    (tm : List RawResult) :
    (finalCardsGen sc fc g th rc stage tm).length ≤ rc := by
  rw [finalCardsGen_eq]
  split
  · simp
  · split
    · rw [List.length_map]
      exact le_trans (List.length_filter_le _ _)
        (selectValidMatches_length_le g rc tm)
    · rw [List.length_map]
      exact selectValidMatches_length_le g rc tm

theorem mem_finalCardsGen {κ : Type} {sc fc : RawResult → κ}
    {g : GeminiResult} {th : ℚ} {rc : Nat} {stage : String}
    {tm : List RawResult} {c : κ}
    (h : c ∈ finalCardsGen sc fc g th rc stage tm) :
    ∃ r ∈ selectValidMatches g rc tm, c = sc r ∨ c = fc r := by
  rw [finalCardsGen_eq] at h
  split at h
  · exact absurd h (List.not_mem_nil c)
  · split at h
    · obtain ⟨r, hr, rfl⟩ := List.mem_map.mp h
      exact ⟨r, (List.filter_sublist _).subset hr, Or.inl rfl⟩
    · obtain ⟨r, hr, rfl⟩ := List.mem_map.mp h
      exact ⟨r, hr, Or.inr rfl⟩

theorem finalCardsGen_price_pairwise {κ : Type} (sc fc : RawResult → κ)
    (price : κ → String)
    (hsc : ∀ r, price (sc r) = (metaOf r).price)
    (hfc : ∀ r, price (fc r) = (metaOf r).price)
    {g : GeminiResult} (hs : g.sort_by_price = true)
    (th : ℚ) (rc : Nat) (stage : String) (tm : List RawResult) :
    ((finalCardsGen sc fc g th rc stage tm).map
      (fun c => parsePrice (price c))).Pairwise (· ≤ ·) := by
  have hvalid := selectValidMatches_sorted hs rc tm
  have hstrict := List.Pairwise.sublist (List.filter_sublist
    (p := fun r => decide (th ≤ r.score)) (selectValidMatches g rc tm)) hvalid
  rw [finalCardsGen_eq]
  split
  · simp
  · split
    · rw [List.map_map]
      exact List.pairwise_map.mpr (hstrict.imp (fun {a b} hab => by
        simp only [Function.comp, hsc]
        exact hab))
    · rw [List.map_map]
      exact List.pairwise_map.mpr (hvalid.imp (fun {a b} hab => by
        simp only [Function.comp, hfc]
        exact hab))

/-! ## Helper lemmas: `queryCore` -/

theorem mem_filterAndSort {pred : RawResult → Bool} {g : GeminiResult}
    {results : List RawResult} {r : RawResult}
    (h : r ∈ filterAndSort pred g results) : pred r = true := by
  simp only [filterAndSort] at h
  split at h
  · have hmem := (List.mergeSort_perm _ priceLe).mem_iff.mp h
    exact (List.mem_filter.mp (List.mem_filter.mp hmem).1).2
  · exact (List.mem_filter.mp h).2

theorem filterAndSort_of_filter_nil {pred : RawResult → Bool}
    {g : GeminiResult} {results : List RawResult}
    (h : results.filter pred = []) : filterAndSort pred g results = [] := by
  simp [filterAndSort, h]

theorem queryCore_some {pred : RawResult → Bool} {g : GeminiResult}
    {indexOk : Bool} {searchText : String} {out : QueryOutcome}
    {l : List RawResult}
    (h : queryCore pred g indexOk searchText out = some l) :
    l ≠ [] ∧ ∀ r ∈ l, pred r = true := by
  simp only [queryCore] at h
  split at h
  · exact Option.noConfusion h
  · split at h
    · exact Option.noConfusion h
    · split at h
      · exact Option.noConfusion h
      · split at h
        · exact Option.noConfusion h
        · split at h
          · exact Option.noConfusion h
          · next hne =>
              injection h with h'
              subst h'
              refine ⟨fun hnil => by simp [hnil] at hne, ?_⟩
              intro r hr
              exact mem_filterAndSort hr

theorem queryCore_index_off (pred : RawResult → Bool) (g : GeminiResult)
    (searchText : String) (out : QueryOutcome) :
    queryCore pred g false searchText out = none := rfl

theorem queryCore_blank {pred : RawResult → Bool} {g : GeminiResult}
    {indexOk : Bool} {searchText : String} {out : QueryOutcome}
    (h : strTrim searchText = "") :
    queryCore pred g indexOk searchText out = none := by
  have hempty : "".isEmpty = true := rfl
  cases indexOk <;> simp [queryCore, h, hempty]

theorem queryCore_error (pred : RawResult → Bool) (g : GeminiResult)
    (indexOk : Bool) (searchText : String) :
    queryCore pred g indexOk searchText .error = none := by
  cases indexOk <;> simp [queryCore]

theorem queryCore_ok_nil (pred : RawResult → Bool) (g : GeminiResult)
    (indexOk : Bool) (searchText : String) :
    queryCore pred g indexOk searchText (.ok []) = none := by
  cases indexOk <;> simp [queryCore]

theorem queryCore_all_filtered {pred : RawResult → Bool} {g : GeminiResult}
    {results : List RawResult} (indexOk : Bool) (searchText : String)
    (h : results.filter pred = []) :
    queryCore pred g indexOk searchText (.ok results) = none := by
  cases indexOk <;>
    simp [queryCore, filterAndSort_of_filter_nil (g := g) h]

/-! ## Helper lemmas: the multi-type loop -/

theorem multiTypeStep_invariant (sb : Bool) (st : List String × List RawResult)
    (res : Option (List RawResult))
    (hacc : (st.2.map (fun r => r.id)).Nodup)
    (hsub : ∀ i ∈ st.2.map (fun r => r.id), i ∈ st.1)
    (hres : ∀ rs, res = some rs → (rs.map (fun r => r.id)).Nodup) :
    ((multiTypeStep sb st res).2.map (fun r => r.id)).Nodup ∧
      ∀ i ∈ (multiTypeStep sb st res).2.map (fun r => r.id),
        i ∈ (multiTypeStep sb st res).1 := by
  match res with
  | none => exact ⟨hacc, hsub⟩
  | some rs =>
      simp only [multiTypeStep]
      split
      · exact ⟨hacc, hsub⟩
      · have hnewsub : (rs.filter (fun r => !st.1.contains r.id)).Sublist rs :=
          List.filter_sublist rs
        have hnewnodup :
            ((rs.filter (fun r => !st.1.contains r.id)).map
              (fun r => r.id)).Nodup :=
          (hnewsub.map _).nodup (hres rs rfl)
        have htakenodup :
            (((rs.filter (fun r => !st.1.contains r.id)).take
              (if sb then 4 else 1)).map (fun r => r.id)).Nodup :=
          ((List.take_sublist _ _).map _).nodup hnewnodup
        constructor
        · rw [List.map_append, List.nodup_append]
          refine ⟨hacc, htakenodup, ?_⟩
          intro i hi hcontra
          obtain ⟨r, hrtake, rfl⟩ := List.mem_map.mp hcontra
          have hrnew := (List.take_sublist _ _).subset hrtake
          have hrfil := List.mem_filter.mp hrnew
          have : r.id ∉ st.1 := by simpa using hrfil.2
          exact this (hsub _ hi)
        · intro i hi
          rw [List.map_append] at hi
          rcases List.mem_append.mp hi with hl | hr
          · exact List.mem_append.mpr (Or.inl (hsub i hl))
          · refine List.mem_append.mpr (Or.inr ?_)
            obtain ⟨r, hrtake, rfl⟩ := List.mem_map.mp hr
            exact List.mem_map.mpr
              ⟨r, (List.take_sublist _ _).subset hrtake, rfl⟩

theorem multiTypeFold_invariant (sb : Bool)
    (stageResults : List (Option (List RawResult)))
    (hres : ∀ rs, some rs ∈ stageResults → (rs.map (fun r => r.id)).Nodup) :
    ∀ st : List String × List RawResult,
      (st.2.map (fun r => r.id)).Nodup →
      (∀ i ∈ st.2.map (fun r => r.id), i ∈ st.1) →
      ((stageResults.foldl (multiTypeStep sb) st).2.map
        (fun r => r.id)).Nodup := by
  induction stageResults with
  | nil => intro st h1 _; exact h1
  | cons res rest ih =>
      intro st h1 h2
      simp only [List.foldl_cons]
      have hstep := multiTypeStep_invariant sb st res h1 h2
        (fun rs hrs => hres rs (by simp [hrs]))
      exact ih (fun rs hrs => hres rs (List.mem_cons_of_mem _ hrs)) _
        hstep.1 hstep.2

/-! ## Helper lemmas: filter projections and small facts -/

theorem passesFilterH_attrs {g : GeminiResult} {f : QueryFilter}
    {r : RawResult} {m : ProductVectorMetadata} {attrs : List String}
    (hm : r.metadata = some (.valid m))
    (ha : g.attributes = some attrs)
    (h : passesFilterH g f r = true) :
    ∀ a ∈ attrs,
      strContains (strToLower (m.tags.getD "")) (strToLower a) = true := by
  simp only [passesFilterH, hm, ha, Bool.and_eq_true] at h
  intro a hma
  have hattr := h.2
  by_cases hae : attrs = []
  · subst hae
    exact absurd hma (List.not_mem_nil a)
  · rw [if_neg (by simpa [List.isEmpty_iff] using hae)] at hattr
    exact List.all_eq_true.mp hattr a hma

theorem passesFilterH_price {g : GeminiResult} {f : QueryFilter}
    {r : RawResult} {m : ProductVectorMetadata} {pc : ℚ}
    (hm : r.metadata = some (.valid m))
    (hp : g.price_filter = some pc)
    (h : passesFilterH g f r = true) :
    parsePrice m.price ≤ pc := by
  simp only [passesFilterH, hm, hp, Bool.and_eq_true] at h
  simpa using h.1.2

theorem pairwise_of_length_le_one {α : Type} {R : α → α → Prop}
    {l : List α} (h : l.length ≤ 1) : l.Pairwise R := by
  match l with
  | [] => exact List.Pairwise.nil
  | [x] => simp
  | x :: y :: t => simp at h

/-! ## Claim theorems -/

/-- C1: in both endpoint variants, when at least one accumulated candidate
has valid metadata and the provenance stage is not the fallback stage, the
final product cards are exactly the truncated candidates
(`selectValidMatches`) scoring at least the threshold, falling back to the
whole truncated set whenever that score filter leaves nothing; the card
list is therefore non-empty, is empty in general only when truncation
yields zero candidates, and fallback-stage candidates are mapped to cards
regardless of score. -/
theorem threshold_policy_final_cards (g : GeminiResult) (th : ℚ) (rc : Nat)
    (stage : String) (tm : List RawResult) (hrc : 1 ≤ rc)
    (hvalid : ∃ r ∈ tm, isPVM r.metadata = true)
    (hstage : stage ≠ fallbackStage) :
    (finalCardsS g th rc stage tm =
      (if (selectValidMatches g rc tm).filter
            (fun r => decide (th ≤ r.score)) = []
       then (selectValidMatches g rc tm).map toCardFallbackS
       else ((selectValidMatches g rc tm).filter
            (fun r => decide (th ≤ r.score))).map toCardStrictS)) ∧
    finalCardsS g th rc stage tm ≠ [] ∧
    (∀ tm', finalCardsS g th rc fallbackStage tm' =
      (selectValidMatches g rc tm').map toCardFallbackS) ∧
    (∀ stage' tm', finalCardsS g th rc stage' tm' = [] →
      selectValidMatches g rc tm' = []) ∧
    (finalCardsH g th rc stage tm =
      (if (selectValidMatches g rc tm).filter
            (fun r => decide (th ≤ r.score)) = []
       then (selectValidMatches g rc tm).map toCardFallbackH
       else ((selectValidMatches g rc tm).filter
            (fun r => decide (th ≤ r.score))).map toCardStrictH)) ∧
    finalCardsH g th rc stage tm ≠ [] ∧
    (∀ tm', finalCardsH g th rc fallbackStage tm' =
      (selectValidMatches g rc tm').map toCardFallbackH) ∧
    (∀ stage' tm', finalCardsH g th rc stage' tm' = [] →
      selectValidMatches g rc tm' = []) := by
  have hv : selectValidMatches g rc tm ≠ [] :=
    selectValidMatches_ne_nil hrc hvalid
  refine ⟨?_, ?_, ?_, ?_, ?_, ?_, ?_, ?_⟩
  · exact finalCardsGen_not_fallback _ _ hstage hv
  · exact finalCardsGen_ne_nil hv
  · intro tm'
    exact finalCardsGen_fallback _ _ g th rc tm'
  · intro stage' tm' h
    exact finalCardsGen_eq_nil h
  · exact finalCardsGen_not_fallback _ _ hstage hv
  · exact finalCardsGen_ne_nil hv
  · intro tm'
    exact finalCardsGen_fallback _ _ g th rc tm'
  · intro stage' tm' h
    exact finalCardsGen_eq_nil h

/-- Witness for C1 at a concrete input: one valid candidate, a non-fallback
stage. -/
theorem threshold_policy_final_cards_witness :
    finalCardsS defaultGeminiResult similarityThresholdS 1 "AI Keywords"
      [mkValidResult "p1" 2 sampleMeta] ≠ [] :=
  (threshold_policy_final_cards defaultGeminiResult similarityThresholdS 1
    "AI Keywords" [mkValidResult "p1" 2 sampleMeta] (by decide)
    ⟨mkValidResult "p1" 2 sampleMeta, by simp, rfl⟩ (by decide)).2.1

/-- C2 (counterexample): for the query `"top 4 cheapest lipsticks"` with
the intent stage yielding `product_types = ["lipstick"]` (and the model's
documented `requested_product_count = 4`, `sort_by_price = true`), the
count adjustment forces `requested_product_count` to the number of product
types — `1`, not `4`: the non-empty `product_types` branch shadows the
`"top 4 cheapest"` branch. -/
theorem top4_cheapest_count_counterexample :
    (adjustGeminiResult [] "top 4 cheapest lipsticks"
      c2ParsedIntent).requested_product_count = 1 ∧
    (adjustGeminiResult [] "top 4 cheapest lipsticks"
      c2ParsedIntent).requested_product_count ≠ 4 := by
  constructor <;> decide

/-- C2 (amended): when the intent stage yields
`product_types = ["lipstick"]` for `"top 4 cheapest lipsticks"`, the
derived intent has `requested_product_count = 1` (forced to the number of
requested types), `requestedCount` is `1`, and the matcher therefore
returns at most 1 product card — in particular at most 4 — and the parsed
prices of the returned cards are (trivially) non-decreasing. -/
theorem top4_cheapest_count_amended (dct : List String) (g : GeminiResult)
    (hg : g.product_types = ["lipstick"]) :
    (adjustGeminiResult dct "top 4 cheapest lipsticks"
      g).requested_product_count = 1 ∧
    requestedCountOf (adjustGeminiResult dct "top 4 cheapest lipsticks" g)
      = 1 ∧
    (∀ (th : ℚ) (stage : String) (tm : List RawResult),
      (finalCardsS (adjustGeminiResult dct "top 4 cheapest lipsticks" g) th
        (requestedCountOf (adjustGeminiResult dct "top 4 cheapest lipsticks"
          g)) stage tm).length ≤ 1 ∧
      ((finalCardsS (adjustGeminiResult dct "top 4 cheapest lipsticks" g) th
        (requestedCountOf (adjustGeminiResult dct "top 4 cheapest lipsticks"
          g)) stage tm).map
            (fun c => parsePrice c.price)).Pairwise (· ≤ ·)) := by
  have h1 : (adjustGeminiResult dct "top 4 cheapest lipsticks"
      g).requested_product_count = 1 := by
    simp [adjustGeminiResult, hg]
  have h2 : requestedCountOf (adjustGeminiResult dct
      "top 4 cheapest lipsticks" g) = 1 := by
    simp [requestedCountOf, h1]
  refine ⟨h1, h2, ?_⟩
  intro th stage tm
  rw [h2]
  have hlen := finalCardsGen_length_le toCardStrictS toCardFallbackS
    (adjustGeminiResult dct "top 4 cheapest lipsticks" g) th 1 stage tm
  refine ⟨hlen, pairwise_of_length_le_one ?_⟩
  rw [List.length_map]
  exact hlen

/-- Witness for C2 (amended) at the documented parsed intent. -/
theorem top4_cheapest_count_amended_witness :
    (adjustGeminiResult [] "top 4 cheapest lipsticks"
      c2ParsedIntent).requested_product_count = 1 ∧
    requestedCountOf (adjustGeminiResult [] "top 4 cheapest lipsticks"
      c2ParsedIntent) = 1 :=
  ⟨(top4_cheapest_count_amended [] c2ParsedIntent rfl).1,
   (top4_cheapest_count_amended [] c2ParsedIntent rfl).2.1⟩

/-- C3: the assembled `advice` string is never empty — for every model
advice, optional usage instructions, and search note it contains at least
the two newlines and a usage paragraph; the catastrophic catch handler's
advice is likewise never empty, and the default intent's apology advice is
non-empty. -/
theorem advice_always_nonempty :
    (∀ (advice : String) (usage : Option String) (note : String),
      buildAdvice advice usage note ≠ "") ∧
    (∀ errMsg : String, catchAdvice errMsg ≠ "") ∧
    defaultGeminiResult.advice ≠ "" := by
  refine ⟨?_, ?_, by decide⟩
  · intro advice usage note h
    have hlen := congrArg String.length h
    have h2 : ("\n\n" : String).length = 2 := rfl
    have h0 : ("" : String).length = 0 := rfl
    simp only [buildAdvice, String.length_append, h2, h0] at hlen
    omega
  · intro errMsg h
    have hlen := congrArg String.length h
    have h63 : ("Sorry, I encountered a problem processing your request. (Ref: " : String).length = 62 := rfl
    have h0 : ("" : String).length = 0 := rfl
    have hp : (")" : String).length = 1 := rfl
    simp only [catchAdvice, String.length_append, h63, h0, hp] at hlen
    omega

/-- C4: in the multi-type loop, provided each per-type query result list
carries pairwise-distinct record ids (the index returns distinct records),
the accumulated `topMatches` never contain two candidates with the same
record id: every per-type pass skips all ids claimed by earlier passes. -/
theorem multi_type_dedup (sb : Bool)
    (stageResults : List (Option (List RawResult)))
    (h : ∀ rs, some rs ∈ stageResults → (rs.map (fun r => r.id)).Nodup) :
    ((multiTypeAccumulate sb stageResults).map (fun r => r.id)).Nodup :=
  multiTypeFold_invariant sb stageResults h ([], []) (by simp) (by simp)

/-- Witness for C4: two types whose result lists share the record id
`p1`. -/
theorem multi_type_dedup_witness :
    ((multiTypeAccumulate false
      [some [mkValidResult "p1" 2 sampleMeta, mkValidResult "p2" 1 sampleMeta2],
       some [mkValidResult "p1" 2 sampleMeta]]).map
        (fun r => r.id)).Nodup :=
  multi_type_dedup false _ (by
    intro rs hrs
    simp only [List.mem_cons, List.not_mem_nil, or_false,
      Option.some.injEq] at hrs
    rcases hrs with h | h <;> subst h <;> decide)

/-- C5: whenever `sort_by_price` is set, the parsed prices of the returned
product cards (in either variant) form a non-decreasing sequence;
`parsePrice` is always non-negative, and a price string containing no
digit and no dot parses to `0`, so malformed prices sort first. -/
theorem price_sort_non_decreasing :
    (∀ (g : GeminiResult) (th : ℚ) (rc : Nat) (stage : String)
        (tm : List RawResult), g.sort_by_price = true →
      ((finalCardsS g th rc stage tm).map
        (fun c => parsePrice c.price)).Pairwise (· ≤ ·) ∧
      ((finalCardsH g th rc stage tm).map
        (fun c => parsePrice c.price)).Pairwise (· ≤ ·)) ∧
    (∀ s : String, 0 ≤ parsePrice s) ∧
    (∀ s : String, (∀ c ∈ s.data, isPriceChar c = false) →
      parsePrice s = 0) := by
  refine ⟨?_, parsePrice_nonneg, parsePrice_eq_zero_of_no_price_chars⟩
  intro g th rc stage tm hs
  exact ⟨finalCardsGen_price_pairwise _ _ ProductCardResponse.price
      (fun _ => rfl) (fun _ => rfl) hs th rc stage tm,
    finalCardsGen_price_pairwise _ _ ProductCardResponseH.price
      (fun _ => rfl) (fun _ => rfl) hs th rc stage tm⟩

/-- Witness for C5: price-sorted cards for two concrete candidates given
out of price order. -/
theorem price_sort_non_decreasing_witness :
    ((finalCardsS { defaultGeminiResult with sort_by_price := true }
      similarityThresholdS 2 "AI Keywords"
      [mkValidResult "p2" 2 sampleMeta2, mkValidResult "p1" 2 sampleMeta]).map
        (fun c => parsePrice c.price)).Pairwise (· ≤ ·) :=
  (price_sort_non_decreasing.1 { defaultGeminiResult with
    sort_by_price := true } similarityThresholdS 2 "AI Keywords"
    [mkValidResult "p2" 2 sampleMeta2, mkValidResult "p1" 2 sampleMeta]
    rfl).1

/-- C6 (counterexample): the claimed multi-field OR type-filter semantics
does not hold for the history variant.  `c6Meta`'s title contains
`"lipstick"`, so the spec-worded predicate accepts it, yet the history
variant's filter rejects it (its type match consults only the normalized
product type, here `"accessories"`). -/
theorem type_filter_claim_counterexample :
    specTypeMatch [] "lipstick" c6Meta = true ∧
    passesFilterH defaultGeminiResult
      ⟨some "lipstick", some "lipstick", ""⟩
      (mkValidResult "p6" 1 c6Meta) = false := by
  constructor <;> decide

/-- C6 (amended): for a record with valid metadata, a non-empty
`productType` filter and a non-empty tag filter (no vendor filter, no
price ceiling, no attributes), the stateless variant's filter is exactly
the claimed semantics — lenient multi-field type match with synonyms, AND
the OR-over-tokens tag match — while the history variant's filter instead
requires only that the normalized product type contain the filter string,
ignoring the tag filter entirely. -/
theorem type_filter_variants_amended (g : GeminiResult) (syns : SynonymMap)
    (pt tg : String) (m : ProductVectorMetadata) (r : RawResult)
    (hm : r.metadata = some (.valid m))
    (hpt : pt ≠ "") (htg : tg ≠ "")
    (hpf : g.price_filter = none) (hattr : g.attributes = none) :
    passesFilterS g syns ⟨some pt, some tg, ""⟩ r =
      (specTypeMatch (synLookup syns (strToLower pt)) pt m &&
        specTagMatch tg m) ∧
    passesFilterH g ⟨some pt, some tg, ""⟩ r =
      strContains (normalizeType m.productType) (strToLower pt) := by
  have hpt' : pt.isEmpty = false := by
    rw [Bool.eq_false_iff]
    intro hc
    exact hpt ((String.isEmpty_iff pt).mp hc)
  have htg' : tg.isEmpty = false := by
    rw [Bool.eq_false_iff]
    intro hc
    exact htg ((String.isEmpty_iff tg).mp hc)
  have hv : ("" : String).isEmpty = true := rfl
  constructor
  · simp only [passesFilterS, hm, hpt', htg', hpf, hv, if_true, if_false,
      Bool.if_false_left, Bool.and_true]
    simp [specTypeMatch, specTagMatch, List.any_cons, List.any_nil,
      Bool.or_assoc, Bool.or_false, Bool.and_true]
  · simp only [passesFilterH, hm, hpt', hpf, hattr, hv]
    simp

/-- Witness for C6 (amended) at a concrete record and filters. -/
theorem type_filter_variants_amended_witness :
    passesFilterS defaultGeminiResult [] ⟨some "lipstick", some "lipstick", ""⟩
      (mkValidResult "p1" 2 sampleMeta) =
      (specTypeMatch (synLookup [] "lipstick") "lipstick" sampleMeta &&
        specTagMatch "lipstick" sampleMeta) :=
  (type_filter_variants_amended defaultGeminiResult [] "lipstick" "lipstick"
    sampleMeta (mkValidResult "p1" 2 sampleMeta) rfl (by decide) (by decide)
    rfl rfl).1

/-- C7: in the history variant, whenever `intent.attributes` is set and
every accumulated candidate came out of some `performVectorQueryH` call
for that intent, every returned product card's lower-cased tag string
contains every lower-cased attribute token (AND semantics, no price
ceiling required); and whenever a price ceiling is also set — as in the
`"vegan lipsticks under $20"` scenario with `attributes = ["vegan"]` and
ceiling 20 — the card's parsed price is at most that ceiling. -/
theorem attribute_price_filter_and (g : GeminiResult) (attrs : List String)
    (th : ℚ) (rc : Nat) (stage : String) (tm : List RawResult)
    (ha : g.attributes = some attrs)
    (hsrc : ∀ r ∈ tm, ∃ (indexOk : Bool) (text : String) (f : QueryFilter)
      (out : QueryOutcome) (l : List RawResult),
      performVectorQueryH g indexOk text f out = some l ∧ r ∈ l) :
    ∀ c ∈ finalCardsH g th rc stage tm,
      (∀ a ∈ attrs, strContains (strToLower c.tags) (strToLower a) = true) ∧
      (∀ pc : ℚ, g.price_filter = some pc → parsePrice c.price ≤ pc) := by
  intro c hc
  obtain ⟨r, hrsel, hcard⟩ := mem_finalCardsGen hc
  have hrtm := (mem_selectValidMatches hrsel).1
  have hpvm := (mem_selectValidMatches hrsel).2
  obtain ⟨iOk, text, f, out, l, hql, hrl⟩ := hsrc r hrtm
  have hpass := (queryCore_some hql).2 r hrl
  obtain ⟨m, hm⟩ : ∃ m, r.metadata = some (.valid m) := by
    cases hmm : r.metadata with
    | none => rw [hmm] at hpvm; simp [isPVM] at hpvm
    | some v =>
        cases v with
        | invalid => rw [hmm] at hpvm; simp [isPVM] at hpvm
        | valid m => exact ⟨m, rfl⟩
  have hmeta : metaOf r = m := by simp [metaOf, hm]
  have hcp : c.price = m.price ∧ c.tags = m.tags.getD "" := by
    rcases hcard with rfl | rfl <;>
      simp [toCardStrictH, toCardFallbackH, hmeta]
  rw [hcp.1, hcp.2]
  exact ⟨passesFilterH_attrs hm ha hpass,
    fun pc hp => passesFilterH_price hm hp hpass⟩

/-- Witness for C7: the vegan intent (which also carries a $20 ceiling),
one candidate obtained from a concrete `performVectorQueryH` call; the
concrete returned card is vegan-tagged and within the ceiling. -/
theorem attribute_price_filter_and_witness :
    strContains
      (strToLower (toCardStrictH (mkValidResult "p1" 2 sampleMeta)).tags)
      (strToLower "vegan") = true ∧
    parsePrice (toCardStrictH (mkValidResult "p1" 2 sampleMeta)).price ≤ 20 := by
  have h := attribute_price_filter_and c7Intent ["vegan"]
    similarityThresholdH 1 "AI Keywords" [mkValidResult "p1" 2 sampleMeta]
    rfl
    (fun r hr => ⟨true, "lipstick", ⟨none, none, ""⟩,
      .ok [mkValidResult "p1" 2 sampleMeta],
      [mkValidResult "p1" 2 sampleMeta], by decide, hr⟩)
  have hc := h (toCardStrictH (mkValidResult "p1" 2 sampleMeta)) (by decide)
  exact ⟨hc.1 "vegan" (by decide), hc.2 20 rfl⟩

/-- C8: when the request body's query is missing/not a string, or is a
string that is empty after trimming, the gate rejects with
`{ error: 'Invalid query provided' }` and HTTP 400 (a non-2xx status), and
no pipeline stage runs: for every possible pipeline continuation the
handler performs zero language-model calls, zero search queries, and zero
history writes. -/
theorem invalid_query_rejected (q : JsVal)
    (h : (∀ s, q ≠ JsVal.str s) ∨ ∃ s, q = JsVal.str s ∧ strTrim s = "") :
    chatGate q = Except.error ⟨"Invalid query provided", 400⟩ ∧
    (∀ (ρ : Type) (er : ErrorResponse → ρ)
        (pl : String → ρ × PipelineTrace),
      runChat er pl q = (er ⟨"Invalid query provided", 400⟩, ⟨0, 0, 0⟩)) ∧
    ¬(200 ≤ 400 ∧ 400 ≤ 299) := by
  have hempty : ("" : String).isEmpty = true := rfl
  have hinv : queryInvalid q = true := by
    rcases h with hns | ⟨s, rfl, hs⟩
    · cases q with
      | str s => exact absurd rfl (hns s)
      | undefined => rfl
      | null => rfl
      | num n => simp [queryInvalid, isStringVal]
      | boolean b => simp [queryInvalid, isStringVal]
      | object => simp [queryInvalid, isStringVal]
      | array => simp [queryInvalid, isStringVal]
    · simp [queryInvalid, jsStrOf, hs, hempty]
  refine ⟨?_, ?_, by omega⟩
  · simp [chatGate, hinv]
  · intro ρ er pl
    simp [runChat, chatGate, hinv]

/-- Witness for C8: a whitespace-only query string. -/
theorem invalid_query_rejected_witness :
    chatGate (JsVal.str "   ") =
      Except.error ⟨"Invalid query provided", 400⟩ :=
  (invalid_query_rejected (JsVal.str "   ")
    (Or.inr ⟨"   ", rfl, by decide⟩)).1

/-- C9: after a successful request in the history-persisting variant, the
stored history is the old history with the new user and bot turns appended,
truncated to at most the configured cap (for any cap of at least 1; the
default cap is 10): its length is `min (old + 2) cap` and it is a suffix of
the appended sequence, so the newest entries are kept and the oldest
evicted first; the persisting write carries a positive time-to-live. -/
theorem history_cap_fifo (history : List ConversationTurn)
    (q advice : String) (maxHistory : Nat) (hmax : 1 ≤ maxHistory) :
    (updateHistory history q advice maxHistory).length =
      min (history.length + 2) maxHistory ∧
    List.IsSuffix (updateHistory history q advice maxHistory)
      (history ++ [⟨"user", q⟩, ⟨"bot", advice⟩]) ∧
    defaultMaxChatHistory = 10 ∧ 0 < historyTtlSeconds := by
  have hl : (history ++ [(⟨"user", q⟩ : ConversationTurn),
      ⟨"bot", advice⟩]).length = history.length + 2 := by simp
  refine ⟨?_, ?_, rfl, by norm_num [historyTtlSeconds]⟩
  · simp only [updateHistory]
    by_cases hlt : maxHistory <
        (history ++ [(⟨"user", q⟩ : ConversationTurn), ⟨"bot", advice⟩]).length
    · rw [if_pos hlt]
      have hne : maxHistory ≠ 0 := by omega
      simp only [jsSliceLast, if_neg hne]
      rw [List.length_drop, hl]
      rw [hl] at hlt
      omega
    · rw [if_neg hlt, hl]
      rw [hl] at hlt
      omega
  · simp only [updateHistory]
    by_cases hlt : maxHistory <
        (history ++ [(⟨"user", q⟩ : ConversationTurn), ⟨"bot", advice⟩]).length
    · rw [if_pos hlt]
      have hne : maxHistory ≠ 0 := by omega
      simp only [jsSliceLast, if_neg hne]
      exact List.drop_suffix _ _
    · rw [if_neg hlt]

/-- Witness for C9: empty prior history, the default cap of 10. -/
theorem history_cap_fifo_witness :
    (updateHistory [] "hi" "hello there" 10).length = min (0 + 2) 10 ∧
    List.IsSuffix (updateHistory [] "hi" "hello there" 10)
      ([] ++ [⟨"user", "hi"⟩, ⟨"bot", "hello there"⟩]) ∧
    defaultMaxChatHistory = 10 ∧ 0 < historyTtlSeconds := by
  have h := history_cap_fifo [] "hi" "hello there" 10 (by decide)
  simpa using h

/-- C10: in both variants, `performVectorQuery` never returns an empty
list: any `some` result is non-empty (and consists of records that passed
the filter); an uninitialized index client, blank search text, an adapter
exception, an empty raw result set, and a raw result set that the filters
reject completely all alike yield `none`, so an empty post-filter set
triggers the same fallthrough as finding nothing at all. -/
theorem perform_vector_query_none_or_nonempty :
    (∀ (g : GeminiResult) (syns : SynonymMap) (indexOk : Bool)
        (text : String) (f : QueryFilter) (out : QueryOutcome)
        (l : List RawResult),
      performVectorQueryS g syns indexOk text f out = some l →
        l ≠ [] ∧ ∀ r ∈ l, passesFilterS g syns f r = true) ∧
    (∀ (g : GeminiResult) (indexOk : Bool) (text : String) (f : QueryFilter)
        (out : QueryOutcome) (l : List RawResult),
      performVectorQueryH g indexOk text f out = some l →
        l ≠ [] ∧ ∀ r ∈ l, passesFilterH g f r = true) ∧
    (∀ g syns text f out, performVectorQueryS g syns false text f out
      = none) ∧
    (∀ g text f out, performVectorQueryH g false text f out = none) ∧
    (∀ g syns indexOk text f out, strTrim text = "" →
      performVectorQueryS g syns indexOk text f out = none) ∧
    (∀ g indexOk text f out, strTrim text = "" →
      performVectorQueryH g indexOk text f out = none) ∧
    (∀ g syns indexOk text f,
      performVectorQueryS g syns indexOk text f .error = none) ∧
    (∀ g indexOk text f, performVectorQueryH g indexOk text f .error
      = none) ∧
    (∀ g syns indexOk text f,
      performVectorQueryS g syns indexOk text f (.ok []) = none) ∧
    (∀ g indexOk text f, performVectorQueryH g indexOk text f (.ok [])
      = none) ∧
    (∀ g syns indexOk text f rs, rs.filter (passesFilterS g syns f) = [] →
      performVectorQueryS g syns indexOk text f (.ok rs) = none) ∧
    (∀ g indexOk text f rs, rs.filter (passesFilterH g f) = [] →
      performVectorQueryH g indexOk text f (.ok rs) = none) := by
  refine ⟨?_, ?_, ?_, ?_, ?_, ?_, ?_, ?_, ?_, ?_, ?_, ?_⟩
  · intro g syns indexOk text f out l h
    exact queryCore_some h
  · intro g indexOk text f out l h
    exact queryCore_some h
  · intro g syns text f out
    exact queryCore_index_off _ g text out
  · intro g text f out
    exact queryCore_index_off _ g text out
  · intro g syns indexOk text f out h
    exact queryCore_blank h
  · intro g indexOk text f out h
    exact queryCore_blank h
  · intro g syns indexOk text f
    exact queryCore_error _ g indexOk text
  · intro g indexOk text f
    exact queryCore_error _ g indexOk text
  · intro g syns indexOk text f
    exact queryCore_ok_nil _ g indexOk text
  · intro g indexOk text f
    exact queryCore_ok_nil _ g indexOk text
  · intro g syns indexOk text f rs h
    exact queryCore_all_filtered indexOk text h
  · intro g indexOk text f rs h
    exact queryCore_all_filtered indexOk text h

/-- Witness for C10: a concrete query whose single raw result passes the
filter, so the returned list is that non-empty singleton. -/
theorem perform_vector_query_none_or_nonempty_witness :
    ([mkValidResult "p1" 2 sampleMeta] : List RawResult) ≠ [] ∧
    ∀ r ∈ ([mkValidResult "p1" 2 sampleMeta] : List RawResult),
      passesFilterS defaultGeminiResult [] ⟨none, none, ""⟩ r = true :=
  perform_vector_query_none_or_nonempty.1 defaultGeminiResult [] true
    "lipstick" ⟨none, none, ""⟩ (.ok [mkValidResult "p1" 2 sampleMeta])
    [mkValidResult "p1" 2 sampleMeta] (by decide)
